import Mathlib

/-!
Verification of the hierarchical market-data aggregation core.

This file gives a shallow embedding, in Lean 4, of the data-processing
core of the dashboard repository:

* the Filter Engine (`filterData` in `src/lib/data-processor.ts`),
* the grouped-bar Aggregator with geographic rollup and stacking
  (`prepareGroupedBarData`),
* the line-chart Aggregator (`prepareLineChartData`),
* the waterfall Projection Adapter (`prepareWaterfallData`),
* the opportunity-matrix analytics of the bubble chart
  (`chartData` in `src/components/charts/D3BubbleChartIndependent.tsx`).

Strings are embedded as `List Char` (`Str`), JavaScript numbers as `ℚ`
everywhere the code performs only field arithmetic and comparisons; the
single genuinely real-valued computation (the CAGR, which uses
`Math.pow` with exponent 1/8) is embedded over `ℝ`.  JavaScript `Map`s
and plain objects keyed by strings are embedded as insertion-ordered
association lists, matching the iteration order the code relies on.
`record.time_series[year] || 0` is embedded as a lookup defaulting to 0
(the `|| 0` also maps an exact 0 to 0, so the default is faithful).
-/

/-- Strings of the embedded programs, as lists of characters. -/
abbrev Str := List Char

/-- Coerce a Lean string literal to the embedded string type. -/
def cs (s : String) : Str := s.data

/-- The hierarchy separator `" > "` used throughout the segment paths. -/
def sepStr : Str := cs " > "

/-- JavaScript `s.includes(sub)`: substring containment. -/
def strIncl (s sub : Str) : Bool :=
  match s with
  | [] => sub.isEmpty
  | _ :: t => sub.isPrefixOf s || strIncl t sub

/-- Worker for `splitSeg`; the fuel is an upper bound on the number of
steps (one character or one separator is consumed per step). -/
def splitGo (fuel : Nat) (s acc : Str) : List Str :=
  match fuel with
  | 0 => [acc.reverse ++ s]
  | Nat.succ n =>
    if sepStr.isPrefixOf s then
      acc.reverse :: splitGo n (s.drop sepStr.length) []
    else
      match s with
      | [] => [acc.reverse]
      | c :: t => splitGo n (t) (c :: acc)

/-- JavaScript `path.split(' > ')`. -/
def splitSeg (s : Str) : List Str := splitGo s.length s []

/-- Join path components back with the `" > "` separator. -/
def joinSep : List Str → Str
  | [] => []
  | [p] => p
  | p :: ps => p ++ sepStr ++ joinSep ps

/-- Lookup in an insertion-ordered association list (JavaScript
`Map.get` / object indexing). -/
def alGet {β : Type} (m : List (Str × β)) (k : Str) : Option β :=
  (m.find? (fun e => e.1 == k)).map (·.2)

/-- JavaScript `Map.set` / `obj[k] = v`: overwrite in place if the key
exists, otherwise append at the end (insertion order). -/
def alSet {β : Type} (m : List (Str × β)) (k : Str) (v : β) : List (Str × β) :=
  match m with
  | [] => [(k, v)]
  | e :: t => if e.1 == k then (k, v) :: t else e :: alSet t k v

/-- JavaScript `m.set(k, (m.get(k) || 0) + v)`: add `v` to the entry at
`k`, creating it at the end when missing. -/
def alBump (m : List (Str × ℚ)) (k : Str) (v : ℚ) : List (Str × ℚ) :=
  match m with
  | [] => [(k, v)]
  | e :: t => if e.1 == k then (e.1, e.2 + v) :: t else e :: alBump t k v

/-- Nested-map update used for `geoMap`: ensure an inner map exists for
geography `g`, then bump segment `s` by `v` inside it. -/
def bump2 (m : List (Str × List (Str × ℚ))) (g s : Str) (v : ℚ) :
    List (Str × List (Str × ℚ)) :=
  match alGet m g with
  | none => m ++ [(g, [(s, v)])]
  | some inner => alSet m g (alBump inner s v)

/-- JavaScript `Set.add`: append if not already present. -/
def sadd (s : List Str) (x : Str) : List Str :=
  if s.contains x then s else s ++ [x]

/-- Geography level of a record (`geography_level` field). -/
inductive GeoLevel : Type
  | global
  | region
  | country
deriving DecidableEq, BEq

/-- The four named levels of `segment_hierarchy`.  JavaScript `undefined`
and the empty string are both falsy and neither equals `'B2B'`/`'B2C'`,
so a missing level is embedded as the empty string. -/
structure SegmentHierarchy : Type where
  level_1 : Str
  level_2 : Str
  level_3 : Str
  level_4 : Str
deriving DecidableEq

/-- `Object.values` of a segment hierarchy, in key-insertion order. -/
def hierLevels (h : SegmentHierarchy) : List Str :=
  [h.level_1, h.level_2, h.level_3, h.level_4]

/-- A data record (`DataRecord` in `src/lib/types`), restricted to the
fields the embedded functions read.  The presentation-only fields
(`segment_level`, the precomputed `cagr` and `market_share`) are not
consulted by any function verified here and are omitted. -/
structure DataRecord : Type where
  geography : Str
  geography_level : GeoLevel
  parent_geography : Option Str
  segment_type : Str
  segment : Str
  segment_hierarchy : SegmentHierarchy
  time_series : List (Nat × ℚ)
deriving DecidableEq

/-- View mode of the dashboard (`viewMode`). -/
inductive ViewMode : Type
  | segmentMode
  | geographyMode
  | matrix
deriving DecidableEq, BEq

/-- An advanced multi-type segment selection entry (`advancedSegments`). -/
structure AdvSeg : Type where
  type : Str
  segment : Str
deriving DecidableEq

/-- The filter state (`FilterState`), restricted to the fields read by
the embedded functions (`dataType` is never consulted by them).  An
absent `advancedSegments` is embedded as the empty list: the code guards
on `advancedSegments && advancedSegments.length > 0`, so `undefined` and
`[]` behave identically. -/
structure FilterState : Type where
  geographies : List Str
  segments : List Str
  segmentType : Str
  yearRange : Nat × Nat
  businessType : Str
  viewMode : ViewMode
  advancedSegments : List AdvSeg
deriving DecidableEq

/-- `record.time_series[year] || 0`. -/
def tsAt (r : DataRecord) (year : Nat) : ℚ :=
  match r.time_series.lookup year with
  | some v => v
  | none => 0

/-- Geography matching of the Filter Engine (`isGeographyMatch`,
`data-processor.ts` lines 37-51): exact, prefix either way, or substring
either way; an empty selection matches everything. -/
def isGeographyMatch (recordGeo : Str) (selected : List Str) : Bool :=
  selected.isEmpty ||
    selected.any (fun geo =>
      recordGeo == geo ||
      geo.isPrefixOf recordGeo ||
      recordGeo.isPrefixOf geo ||
      strIncl recordGeo geo || strIncl geo recordGeo)

/-- Business-type predicate of the Filter Engine (lines 69-80): the
record's `segment_hierarchy.level_1` decides when it is `'B2B'`/`'B2C'`;
otherwise, for the `'By End-Use*Product Type'` taxonomy only, the first
component of the segment path decides when it is `'B2B'`/`'B2C'`; in all
remaining cases the record passes. -/
def businessTypeMatch (r : DataRecord) (fs : FilterState) : Bool :=
  let rb := r.segment_hierarchy.level_1
  if rb == cs "B2B" || rb == cs "B2C" then rb == fs.businessType
  else if fs.segmentType == cs "By End-Use*Product Type" then
    match (splitSeg r.segment).head? with
    | some h => if h == cs "B2B" || h == cs "B2C" then h == fs.businessType else true
    | none => true
  else true

/-- Matching against one `advancedSegments` entry (lines 89-103). -/
def advSegMatch (r : DataRecord) (seg : AdvSeg) : Bool :=
  seg.type == r.segment_type &&
    (seg.segment == r.segment ||
     (seg.segment ++ sepStr).isPrefixOf r.segment ||
     (r.segment ++ sepStr).isPrefixOf seg.segment)

/-- The SegmentMatcher: one record against one selected segment path
(lines 114-132).  Exact match, record a descendant of the selection,
selection a descendant of the record, or any nonempty hierarchy level of
the record listed among the selection's path components. -/
def segSelMatch (r : DataRecord) (sel : Str) : Bool :=
  sel == r.segment ||
  (sel ++ sepStr).isPrefixOf r.segment ||
  (r.segment ++ sepStr).isPrefixOf sel ||
  (hierLevels r.segment_hierarchy).any
    (fun level => !level.isEmpty && (splitSeg sel).contains level)

/-- Segment matching against the whole selection (lines 110-133): an
empty selection is vacuously true. -/
def isSegmentMatchSel (r : DataRecord) (sels : List Str) : Bool :=
  sels.isEmpty || sels.any (segSelMatch r)

/-- The conjunctive record predicate of `filterData` (lines 53-135):
geography, exact segment-type equality, business type, then either the
`advancedSegments` disjunction (when present) or the ordinary segment
disjunction. -/
def recordPasses (fs : FilterState) (r : DataRecord) : Bool :=
  isGeographyMatch r.geography fs.geographies &&
  r.segment_type == fs.segmentType &&
  businessTypeMatch r fs &&
  (if fs.advancedSegments.length > 0 then fs.advancedSegments.any (advSegMatch r)
   else isSegmentMatchSel r fs.segments)

/-- The Filter Engine `filterData` (lines 22-214).  The console/debug
block (lines 139-211) only logs and never changes the result, so the
function reduces to a pure `List.filter`. -/
def filterData (data : List DataRecord) (fs : FilterState) : List DataRecord :=
  data.filter (recordPasses fs)

/-- Embedded `'India'`. -/
def indiaStr : Str := cs "India"

/-- Embedded `'::'`, the composite-key separator of stacked series. -/
def colonSep : Str := cs "::"

/-- Child geographies of India (`prepareGroupedBarData` lines 230-238 and
`prepareLineChartData` lines 686-693): every geography of a record whose
`parent_geography` is `'India'` or whose `geography_level` is `'region'`
or `'country'`, collected in a `Set` (first-insertion order). -/
def childGeographiesOf (records : List DataRecord) : List Str :=
  records.foldl
    (fun s r =>
      if r.parent_geography == some indiaStr ||
         (r.geography_level == GeoLevel.region || r.geography_level == GeoLevel.country)
      then sadd s r.geography else s)
    []

/-- Stacking decision (lines 247-248): segment-mode with more than one
selected geography, or geography-mode with more than one selected
segment. -/
def needsStacking (fs : FilterState) : Bool :=
  (fs.viewMode == ViewMode.segmentMode && decide (1 < fs.geographies.length)) ||
  (fs.viewMode == ViewMode.geographyMode && decide (1 < fs.segments.length))

/-- Rollup segment test (lines 265-267, 416-418, 561-563, 745-747): the
record's segment equals a selected segment or is a strict descendant of
one. -/
def segEqOrChild (segs : List Str) (r : DataRecord) : Bool :=
  segs.any (fun seg => r.segment == seg || (seg ++ sepStr).isPrefixOf r.segment)

/-- Selected-segment resolution used in the stacked branches (lines
337-348 and 511-518): exact, record a descendant of the selection, or
the selection a descendant of the record. -/
def findSegMatchA (segs : List Str) (r : DataRecord) : Option Str :=
  segs.find? (fun seg =>
    r.segment == seg ||
    (seg ++ sepStr).isPrefixOf r.segment ||
    (r.segment ++ sepStr).isPrefixOf seg)

/-- Selected-segment resolution used in the stacked India rollup and the
unstacked segment-mode key (lines 422-427 and 613-621): exact, record a
descendant, or the selection contains `' > '` and is a plain prefix of
the record's segment. -/
def findSegMatchB (segs : List Str) (r : DataRecord) : Option Str :=
  segs.find? (fun seg =>
    r.segment == seg ||
    (seg ++ sepStr).isPrefixOf r.segment ||
    (strIncl seg sepStr && seg.isPrefixOf r.segment))

/-- Selected-geography resolution (lines 487-494 and 638-645): exact,
prefix either way, or substring either way. -/
def findGeoMatch (geos : List Str) (r : DataRecord) : Option Str :=
  geos.find? (fun geo =>
    r.geography == geo ||
    geo.isPrefixOf r.geography ||
    r.geography.isPrefixOf geo ||
    strIncl r.geography geo || strIncl geo r.geography)

/-- India pre-pass accumulation (lines 259-288): sum the child-geography
records that match the selected segments, keyed per segment in
segment-mode and under `'India'` otherwise — in the latter case only
when a segment selection exists. -/
def indiaPrePassMap (cg : List Str) (vm : ViewMode) (segs : List Str)
    (records : List DataRecord) (year : Nat) : List (Str × ℚ) :=
  records.foldl
    (fun m r =>
      if cg.contains r.geography then
        if segs.isEmpty || segEqOrChild segs r then
          match vm with
          | ViewMode.segmentMode => alBump m r.segment (tsAt r year)
          | _ => if 0 < segs.length then alBump m indiaStr (tsAt r year) else m
        else m
      else m)
    []

/-- Merge of the India pre-pass into the data point (lines 291-300):
per-segment keys in segment-mode, the single `'India'` key otherwise. -/
def applyPrePass (vm : ViewMode) (m entries : List (Str × ℚ)) : List (Str × ℚ) :=
  m.foldl
    (fun es kv =>
      match vm with
      | ViewMode.segmentMode => alBump es kv.1 kv.2
      | _ => alBump es indiaStr kv.2)
    entries

/-- Deduplicated geography names of the records, in first-occurrence
order (`Array.from(new Set(records.map(r => r.geography)))`). -/
def dedupGeos (records : List DataRecord) : List Str :=
  records.foldl (fun s r => sadd s r.geography) []

/-- The bar-group seed (lines 313-315 and 468-470): the selected
geographies when any, else all geographies observed in the records. -/
def allGeographiesOf (fs : FilterState) (records : List DataRecord) : List Str :=
  if 0 < fs.geographies.length then fs.geographies else dedupGeos records

/-- Seed `geoMap` with empty inner maps for the given geographies. -/
def seedMap (gs : List Str) : List (Str × List (Str × ℚ)) :=
  gs.foldl (fun m g => if (alGet m g).isSome then m else m ++ [(g, [])]) []

/-- Stacked segment-mode fill (lines 323-371): skip India's children,
resolve the record's segment against the selection (skipping unmatched
records when a selection exists), and bump `geoMap[geography][segment]`. -/
def stackedSegModeFill (hasIndia : Bool) (cg : List Str) (fs : FilterState)
    (records : List DataRecord) (year : Nat) : List (Str × List (Str × ℚ)) :=
  records.foldl
    (fun m r =>
      if hasIndia && cg.contains r.geography then m
      else
        match (if 0 < fs.segments.length then findSegMatchA fs.segments r
               else some r.segment) with
        | none => m
        | some mseg => bump2 m r.geography mseg (tsAt r year))
    (seedMap (allGeographiesOf fs records))

/-- Zero fill (lines 375-393 and 541-551): when a segment selection
exists, add every missing selected segment with value 0 to every
geography of the map. -/
def zeroFill (segs : List Str) (m : List (Str × List (Str × ℚ))) :
    List (Str × List (Str × ℚ)) :=
  if 0 < segs.length then
    m.map (fun gi =>
      (gi.1,
       segs.foldl (fun inn s => if (alGet inn s).isSome then inn else inn ++ [(s, 0)]) gi.2))
  else m

/-- India rollup of the stacked segment-mode branch (lines 411-437):
child-geography records matching the selection are summed per resolved
selected segment. -/
def indiaStackSegMap (cg segs : List Str) (records : List DataRecord) (year : Nat) :
    List (Str × ℚ) :=
  records.foldl
    (fun m r =>
      if cg.contains r.geography then
        if segEqOrChild segs r then
          match findSegMatchB segs r with
          | some found => alBump m found (tsAt r year)
          | none => m
        else m
      else m)
    []

/-- India rollup of the stacked geography-mode branch (lines 556-572):
child-geography records matching the selection are summed per raw record
segment. -/
def indiaStackGeoMap (cg segs : List Str) (records : List DataRecord) (year : Nat) :
    List (Str × ℚ) :=
  records.foldl
    (fun m r =>
      if cg.contains r.geography && segEqOrChild segs r then
        alBump m r.segment (tsAt r year)
      else m)
    []

/-- Merge an India rollup map into `geoMap` under the `'India'` key
(lines 440-448 and 575-583). -/
def mergeIndia (m : List (Str × List (Str × ℚ))) (im : List (Str × ℚ)) :
    List (Str × List (Str × ℚ)) :=
  let m1 := if (alGet m indiaStr).isSome then m else m ++ [(indiaStr, [])]
  im.foldl (fun mm kv => bump2 mm indiaStr kv.1 kv.2) m1

/-- Emit stacked keys `geography::segment` (lines 452-457); plain
assignment, not accumulation. -/
def emitGeoSeg (m : List (Str × List (Str × ℚ))) (entries : List (Str × ℚ)) :
    List (Str × ℚ) :=
  m.foldl
    (fun es gi =>
      gi.2.foldl (fun es2 sv => alSet es2 (gi.1 ++ colonSep ++ sv.1) sv.2) es)
    entries

/-- Emit stacked keys `segment::geography` (lines 587-594). -/
def emitSegGeo (m : List (Str × List (Str × ℚ))) (entries : List (Str × ℚ)) :
    List (Str × ℚ) :=
  m.foldl
    (fun es gi =>
      gi.2.foldl (fun es2 sv => alSet es2 (sv.1 ++ colonSep ++ gi.1) sv.2) es)
    entries

/-- Stacked geography-mode fill (lines 478-538): skip India's children,
normalize the record's geography against the selection, drop records
whose normalized geography is not a seeded bar group, resolve the
segment, and bump `geoMap[geography][segment]`. -/
def stackedGeoModeFill (hasIndia : Bool) (cg : List Str) (fs : FilterState)
    (records : List DataRecord) (year : Nat) : List (Str × List (Str × ℚ)) :=
  records.foldl
    (fun m r =>
      if hasIndia && cg.contains r.geography then m
      else
        let ng :=
          match (if 0 < fs.geographies.length then findGeoMatch fs.geographies r
                 else none) with
          | some g => g
          | none => r.geography
        if (alGet m ng).isNone then m
        else
          match (if 0 < fs.segments.length then findSegMatchA fs.segments r
                 else some r.segment) with
          | none => m
          | some mseg =>
            match alGet m ng with
            | none => m ++ [(ng, [(mseg, tsAt r year)])]
            | some inner => alSet m ng (alBump inner mseg (tsAt r year)))
    (seedMap (allGeographiesOf fs records))

/-- Unstacked aggregation key (lines 606-655): resolved selected segment
in segment-mode, resolved selected geography in geography-mode,
`geography::segment` in matrix mode. -/
def unstackedKey (fs : FilterState) (r : DataRecord) : Str :=
  match fs.viewMode with
  | ViewMode.segmentMode =>
    if 0 < fs.segments.length then
      match findSegMatchB fs.segments r with
      | some k => k
      | none => r.segment
    else r.segment
  | ViewMode.geographyMode =>
    if 0 < fs.geographies.length then
      match findGeoMatch fs.geographies r with
      | some g => g
      | none => r.geography
    else r.geography
  | ViewMode.matrix => r.geography ++ colonSep ++ r.segment

/-- Unstacked aggregation (lines 598-661): India's child geographies are
skipped (when India is selected), everything else is summed per key. -/
def unstackedAgg (hasIndia : Bool) (cg : List Str) (fs : FilterState)
    (records : List DataRecord) (year : Nat) : List (Str × ℚ) :=
  records.foldl
    (fun m r =>
      if hasIndia && cg.contains r.geography then m
      else alBump m (unstackedKey fs r) (tsAt r year))
    []

/-- One row of chart data: the year plus the insertion-ordered series
entries of the Recharts data point. -/
structure ChartPoint : Type where
  year : Nat
  entries : List (Str × ℚ)
deriving DecidableEq

/-- Inclusive year range of the `for` loop (lines 241-244). -/
def yearsOf (a b : Nat) : List Nat :=
  (List.range (b + 1 - a)).map (a + ·)

/-- One data point of `prepareGroupedBarData` (lines 251-668): the India
pre-pass, then the stacked or unstacked branch.  The matrix view never
stacks (`needsStacking` is false there), so its stacked arm is
unreachable and returns the pre-pass entries unchanged. -/
def groupedBarPoint (records : List DataRecord) (fs : FilterState) (year : Nat) :
    ChartPoint :=
  let hasIndia := fs.geographies.contains indiaStr
  let cg := if hasIndia then childGeographiesOf records else []
  let e1 :=
    if hasIndia && !cg.isEmpty then
      applyPrePass fs.viewMode (indiaPrePassMap cg fs.viewMode fs.segments records year) []
    else []
  if needsStacking fs then
    match fs.viewMode with
    | ViewMode.segmentMode =>
      let m := stackedSegModeFill hasIndia cg fs records year
      let m := zeroFill fs.segments m
      let m :=
        if hasIndia && !cg.isEmpty && 0 < fs.segments.length then
          mergeIndia m (indiaStackSegMap cg fs.segments records year)
        else m
      ⟨year, emitGeoSeg m e1⟩
    | ViewMode.geographyMode =>
      let m := stackedGeoModeFill hasIndia cg fs records year
      let m := zeroFill fs.segments m
      let m :=
        if hasIndia && !cg.isEmpty && 0 < fs.segments.length then
          mergeIndia m (indiaStackGeoMap cg fs.segments records year)
        else m
      ⟨year, emitSegGeo m e1⟩
    | ViewMode.matrix => ⟨year, e1⟩
  else
    ⟨year, (unstackedAgg hasIndia cg fs records year).foldl
      (fun es kv => alBump es kv.1 kv.2) e1⟩

/-- The grouped-bar Aggregator `prepareGroupedBarData` (lines 219-670). -/
def prepareGroupedBarData (records : List DataRecord) (fs : FilterState) :
    List ChartPoint :=
  (yearsOf fs.yearRange.1 fs.yearRange.2).map (groupedBarPoint records fs)

/-- Line-chart series key (lines 716-730). -/
def lineKey (vm : ViewMode) (r : DataRecord) : Str :=
  match vm with
  | ViewMode.segmentMode => r.segment
  | ViewMode.geographyMode => r.geography
  | ViewMode.matrix => r.geography ++ colonSep ++ r.segment

/-- Line-chart direct aggregation (lines 710-735): India's child
geographies are skipped when India is selected. -/
def lineDirect (hasIndia : Bool) (cg : List Str) (vm : ViewMode)
    (records : List DataRecord) (year : Nat) : List (Str × ℚ) :=
  records.foldl
    (fun m r =>
      if hasIndia && cg.contains r.geography then m
      else alBump m (lineKey vm r) (tsAt r year))
    []

/-- Line-chart India rollup (lines 740-763): child-geography records
matching the selection, keyed per segment in segment-mode and under
`'India'` otherwise. -/
def lineIndia (cg : List Str) (vm : ViewMode) (segs : List Str)
    (records : List DataRecord) (year : Nat) : List (Str × ℚ) :=
  records.foldl
    (fun m r =>
      if cg.contains r.geography then
        if segEqOrChild segs r then
          match vm with
          | ViewMode.segmentMode => alBump m r.segment (tsAt r year)
          | _ => alBump m indiaStr (tsAt r year)
        else m
      else m)
    []

/-- One data point of `prepareLineChartData` (lines 703-778). -/
def linePoint (records : List DataRecord) (fs : FilterState) (year : Nat) :
    ChartPoint :=
  let hasIndia := fs.geographies.contains indiaStr
  let cg := if hasIndia then childGeographiesOf records else []
  let agg := lineDirect hasIndia cg fs.viewMode records year
  let agg2 :=
    if hasIndia && !cg.isEmpty && 0 < fs.segments.length then
      (lineIndia cg fs.viewMode fs.segments records year).foldl
        (fun m kv => alBump m kv.1 kv.2) agg
    else agg
  ⟨year, agg2⟩

/-- The line-chart Aggregator `prepareLineChartData` (lines 675-779). -/
def prepareLineChartData (records : List DataRecord) (fs : FilterState) :
    List ChartPoint :=
  (yearsOf fs.yearRange.1 fs.yearRange.2).map (linePoint records fs)

/-- Row type of the waterfall output (`'start' | 'positive' | 'negative'
| 'end'`); `end` is a reserved word in Lean, embedded as `wend`. -/
inductive RowKind : Type
  | start
  | positive
  | negative
  | wend
deriving DecidableEq, BEq

/-- One waterfall row `{ name, value, type }`. -/
structure WRow : Type where
  name : Str
  value : ℚ
  wtype : RowKind
deriving DecidableEq

/-- Waterfall grouping key (`prepareWaterfallData` line 907): segment in
segment-mode, geography otherwise. -/
def wKey (fs : FilterState) (r : DataRecord) : Str :=
  if fs.viewMode == ViewMode.segmentMode then r.segment else r.geography

/-- Per-entity deltas of the waterfall (lines 918-926): each record
contributes `endValue - startValue` to its entity's entry. -/
def groupedDeltas (records : List DataRecord) (fs : FilterState) :
    List (Str × ℚ) :=
  records.foldl
    (fun m r => alBump m (wKey fs r) (tsAt r fs.yearRange.2 - tsAt r fs.yearRange.1))
    []

/-- Insertion step of the descending-by-absolute-value sort. -/
def insertAbs (x : Str × ℚ) : List (Str × ℚ) → List (Str × ℚ)
  | [] => [x]
  | y :: t => if |y.2| ≤ |x.2| then x :: y :: t else y :: insertAbs x t

/-- Sort contributions by absolute value, largest first (lines 939-940). -/
def sortAbs : List (Str × ℚ) → List (Str × ℚ)
  | [] => []
  | x :: t => insertAbs x (sortAbs t)

/-- Label of the synthetic start row, `Start (year)`. -/
def startLabel (y : Nat) : Str := cs "Start (" ++ Nat.toDigits 10 y ++ cs ")"

/-- Label of the synthetic end row, `End (year)`. -/
def endLabel (y : Nat) : Str := cs "End (" ++ Nat.toDigits 10 y ++ cs ")"

/-- Sum of all records' start-year values (lines 910-915). -/
def startTotalOf (records : List DataRecord) (fs : FilterState) : ℚ :=
  (records.map (fun r => tsAt r fs.yearRange.1)).sum

/-- Sum of all records' end-year values (lines 964-968). -/
def endTotalOf (records : List DataRecord) (fs : FilterState) : ℚ :=
  (records.map (fun r => tsAt r fs.yearRange.2)).sum

/-- The waterfall Projection Adapter `prepareWaterfallData` (lines
900-978): a start row, the positive deltas, the negative deltas (as
absolute values), and an end row. -/
def prepareWaterfallData (records : List DataRecord) (fs : FilterState) :
    List WRow :=
  let sorted := sortAbs (groupedDeltas records fs)
  ⟨startLabel fs.yearRange.1, startTotalOf records fs, RowKind.start⟩ ::
    ((sorted.filter (fun e => decide (0 < e.2))).map
        (fun e => ⟨e.1, e.2, RowKind.positive⟩) ++
     ((sorted.filter (fun e => decide (e.2 < 0))).map
        (fun e => ⟨e.1, |e.2|, RowKind.negative⟩) ++
      [⟨endLabel fs.yearRange.2, endTotalOf records fs, RowKind.wend⟩]))

/-- Normalization of a segment path in the bubble chart's segment filter
(`D3BubbleChartIndependent.tsx` lines 97-103): strip a leading
`B2B`/`B2C` component. -/
def normalizePathQ (p : Str) : Str :=
  match splitSeg p with
  | [] => p
  | h :: t => if h == cs "B2B" || h == cs "B2C" then joinSep t else p

/-- Segment filter of the bubble chart (lines 105-119). -/
def bubbleSegMatch (sels : List Str) (r : DataRecord) : Bool :=
  sels.any (fun s =>
    r.segment == s ||
    (normalizePathQ r.segment == normalizePathQ s ||
     (normalizePathQ s ++ sepStr).isPrefixOf (normalizePathQ r.segment) ||
     (strIncl (normalizePathQ s) sepStr &&
      (normalizePathQ s).isPrefixOf (normalizePathQ r.segment))))

/-- Geography/business-type/segment filtering of the bubble chart
(lines 83-120): records of the selected geography, optionally restricted
to one business type (`level_1`), optionally restricted by the selected
segments. -/
def geographyFilteredOf (ds : List DataRecord) (selGeo selBiz : Str)
    (selSegs : List Str) : List DataRecord :=
  let g0 := ds.filter (fun r => r.geography == selGeo)
  let g1 :=
    if selBiz != cs "All" then
      g0.filter (fun r => r.segment_hierarchy.level_1 == selBiz)
    else g0
  if 0 < selSegs.length then g1.filter (bubbleSegMatch selSegs) else g1

/-- Deduplicated segments of the selected type present in the filtered
data, in first-occurrence order (lines 131-134). -/
def allSegmentsOfTypeOf (gf : List DataRecord) (t : Str) : List Str :=
  (gf.filter (fun r => r.segment_type == t)).foldl (fun s r => sadd s r.segment) []

/-- All segments that appear as a child in the hierarchy adjacency
(lines 137-142). -/
def childSegmentsOf (hier : List (Str × List Str)) : List Str :=
  hier.foldl (fun s p => p.2.foldl sadd s) []

/-- Immediate children: segments of the selected type that are not a
child of any other segment (lines 144-149). -/
def immediateChildrenOf (gf : List DataRecord) (t : Str)
    (hier : List (Str × List Str)) : List Str :=
  (allSegmentsOfTypeOf gf t).filter (fun s => !(childSegmentsOf hier).contains s)

/-- Transitive descendants of a segment in the hierarchy (lines 158-171).
The source recursion terminates because the spec's hierarchies are
cycle-free trees; the embedding bounds the recursion depth by the fuel,
and `hier.length` levels suffice on any cycle-free adjacency since each
level consumes a distinct key. -/
def descend (hier : List (Str × List Str)) (fuel : Nat) (p : Str) : List Str :=
  match fuel with
  | 0 => []
  | Nat.succ n =>
    match alGet hier p with
    | some chs => chs.foldr (fun c acc => (c :: descend hier n c) ++ acc) []
    | none => []

/-- `getAllDescendants` with fuel `hier.length` (sufficient on trees). -/
def getAllDescendants (hier : List (Str × List Str)) (p : Str) : List Str :=
  descend hier hier.length p

/-- Total 2024 base value over the whole filtered geography data, all
segment types included (lines 209-213). -/
def totalBase2024Of (gf : List DataRecord) : ℚ :=
  (gf.map (fun r => tsAt r 2024)).sum

/-- Raw per-child metrics of the opportunity matrix (one entry of
`segmentData`, lines 198-206). -/
structure SegmentDatum : Type where
  segment : Str
  baseValue : ℚ
  forecastValue : ℚ
  cagr : ℚ
  marketShare2024 : ℚ
  absoluteGrowth : ℚ
  index : Nat
deriving DecidableEq

/-- Raw metrics for one immediate child (lines 215-283).  `cagrFn`
abstracts the float computation of lines 242-252 (a `Math.pow` with
exponent 1/8); its real-number referent `calculatedCAGRReal` is defined
and verified below.  The push guard of line 272 keeps only children with
positive base and forecast values (the `isNaN` checks are vacuous in an
exact-arithmetic embedding), and line 277 floors the stored CAGR at 0. -/
def mkDatum (cagrFn : ℚ → ℚ → ℚ) (gf : List DataRecord) (total : ℚ)
    (hier : List (Str × List Str)) (selType : Str) (iseg : Nat × Str) :
    Option SegmentDatum :=
  let segsInc := iseg.2 :: getAllDescendants hier iseg.2
  let srecs := gf.filter (fun r => segsInc.contains r.segment && r.segment_type == selType)
  if srecs.isEmpty then none
  else
    let base := (srecs.map (fun r => tsAt r 2024)).sum
    let fore := (srecs.map (fun r => tsAt r 2032)).sum
    let share := if 0 < total then base / total * 100 else 0
    let calcCagr := if 0 < base ∧ 0 < fore then cagrFn base fore else 0
    if 0 < fore ∧ 0 < base then
      some ⟨iseg.2, base, fore, max 0 calcCagr, share, fore - base, iseg.1⟩
    else none

/-- The `segmentData` list of the opportunity matrix (lines 122-283):
empty when the filtered data is empty (early return of line 122-124),
else one optional entry per immediate child in order, carrying its
position as the palette index. -/
def buildSegmentData (cagrFn : ℚ → ℚ → ℚ) (ds : List DataRecord)
    (selGeo selBiz : Str) (selSegs : List Str) (selType : Str)
    (hier : List (Str × List Str)) : List SegmentDatum :=
  let gf := geographyFilteredOf ds selGeo selBiz selSegs
  if gf.isEmpty then []
  else
    (immediateChildrenOf gf selType hier).enum.filterMap
      (mkDatum cagrFn gf (totalBase2024Of gf) hier selType)

/-- `Math.max(...list)` over a nonempty list; the empty case (which is
`-Infinity` in JavaScript) is never consulted because the indices are
only computed for members of the same list. -/
def listMaxQ : List ℚ → ℚ
  | [] => 0
  | x :: xs => xs.foldl max x

/-- Maximum raw CAGR over `segmentData` (line 286). -/
def maxCAGROf (sd : List SegmentDatum) : ℚ := listMaxQ (sd.map (·.cagr))

/-- Maximum raw 2024 market share over `segmentData` (line 287). -/
def maxShareOf (sd : List SegmentDatum) : ℚ := listMaxQ (sd.map (·.marketShare2024))

/-- Maximum raw absolute growth over `segmentData` (line 288). -/
def maxGrowthOf (sd : List SegmentDatum) : ℚ := listMaxQ (sd.map (·.absoluteGrowth))

/-- CAGR index of one child (line 323). -/
def cagrIndexOf (sd : List SegmentDatum) (e : SegmentDatum) : ℚ :=
  if 0 < maxCAGROf sd then min 100 (e.cagr / maxCAGROf sd * 100) else 0

/-- Market-share index of one child (line 324). -/
def shareIndexOf (sd : List SegmentDatum) (e : SegmentDatum) : ℚ :=
  if 0 < maxShareOf sd then min 100 (e.marketShare2024 / maxShareOf sd * 100) else 0

/-- Incremental-opportunity index of one child (line 325). -/
def growthIndexOf (sd : List SegmentDatum) (e : SegmentDatum) : ℚ :=
  if 0 < maxGrowthOf sd then min 100 (e.absoluteGrowth / maxGrowthOf sd * 100) else 0

/-- One bubble of the opportunity matrix (lines 337-355), restricted to
the numeric payload (the force-simulation coordinates and the color
string are presentation-only; `colorIdx` is the palette index
`index % 10` fed to `getChartColor`). -/
structure Bubble : Type where
  name : Str
  xIndex : ℚ
  yIndex : ℚ
  zIndex : ℚ
  cagr : ℚ
  marketShare : ℚ
  absoluteGrowth : ℚ
  currentValue : ℚ
  colorIdx : Nat
deriving DecidableEq

/-- Build one bubble from one `segmentData` entry (lines 320-356). -/
def mkBubble (sd : List SegmentDatum) (e : SegmentDatum) : Bubble :=
  ⟨e.segment, cagrIndexOf sd e, shareIndexOf sd e, growthIndexOf sd e,
   e.cagr, e.marketShare2024, e.absoluteGrowth, e.forecastValue, e.index % 10⟩

/-- The index-calculation pass (lines 317-356). -/
def computeIndices (sd : List SegmentDatum) : List Bubble := sd.map (mkBubble sd)

/-- The bubble pipeline up to index computation (the later sort by
opportunity index, minimum-index filter and top-N truncation of lines
358-367 only reorder and drop bubbles and are not consulted by the
claims below). -/
def bubblesOf (cagrFn : ℚ → ℚ → ℚ) (ds : List DataRecord) (selGeo selBiz : Str)
    (selSegs : List Str) (selType : Str) (hier : List (Str × List Str)) :
    List Bubble :=
  computeIndices (buildSegmentData cagrFn ds selGeo selBiz selSegs selType hier)

/-- The real-number referent of the guarded CAGR computation (lines
238-266): when base and forecast are both positive, the growth ratio is
capped at 100, raised to the power 1/8 (`years = 2032 - 2024 = 8`), and
the resulting percentage is capped at 100; otherwise 0. -/
noncomputable def calculatedCAGRReal (base forecast : ℝ) : ℝ :=
  if 0 < base ∧ 0 < forecast then
    min (((min (forecast / base) 100) ^ ((8 : ℝ)⁻¹) - 1) * 100) 100
  else 0

/-- The CAGR as stored into `segmentData` (line 277): floored at 0. -/
noncomputable def pushedCagrReal (base forecast : ℝ) : ℝ :=
  max 0 (calculatedCAGRReal base forecast)

/-- Total of the `value` fields of a list of waterfall rows. -/
def sumVals (l : List WRow) : ℚ := (l.map (·.value)).sum

/-- Modelled from the claim's wording for the stacking rule: the number
of selections in the primary dimension (the bar groups): geographies in
segment-mode, segments in geography-mode; the matrix view has no
primary/secondary split. -/
def primaryCountClaim (fs : FilterState) : Nat :=
  match fs.viewMode with
  | ViewMode.segmentMode => fs.geographies.length
  | ViewMode.geographyMode => fs.segments.length
  | ViewMode.matrix => 0

/-- Modelled from the claim's wording for the stacking rule: the number
of selections in the secondary dimension (the stack slices). -/
def secondaryCountClaim (fs : FilterState) : Nat :=
  match fs.viewMode with
  | ViewMode.segmentMode => fs.segments.length
  | ViewMode.geographyMode => fs.geographies.length
  | ViewMode.matrix => 0

/-- Modelled from the claim's wording for the market-share denominator:
the sum of base-year values over the filtered records of the selected
segment type only. -/
def totalBaseOfTypeClaim (gf : List DataRecord) (t : Str) : ℚ :=
  ((gf.filter (fun r => r.segment_type == t)).map (fun r => tsAt r 2024)).sum

/-- An empty segment hierarchy (all levels missing). -/
def hier0 : SegmentHierarchy := ⟨[], [], [], []⟩

/-- Example record: a region of India named `North India`. -/
def northRec (v : ℚ) : DataRecord :=
  ⟨cs "North India", GeoLevel.region, some indiaStr, cs "T", cs "S", hier0, [(2025, v)]⟩

/-- Example record: a region of India named `South India`. -/
def southRec (v : ℚ) : DataRecord :=
  ⟨cs "South India", GeoLevel.region, some indiaStr, cs "T", cs "S", hier0, [(2025, v)]⟩

/-- Example filter state: geography-mode, `India` selected together with
its two child regions, one selected segment. -/
def fsC1 : FilterState :=
  ⟨[indiaStr, cs "North India", cs "South India"], [cs "S"], cs "T", (2025, 2025),
   cs "B2B", ViewMode.geographyMode, []⟩

/-- Example filter state: segment-mode, two selected geographies and no
selected segments. -/
def fsC2 : FilterState :=
  ⟨[cs "A", cs "B"], [], cs "T", (2025, 2025), cs "B2B", ViewMode.segmentMode, []⟩

/-- Example record in geography `A`, segment `s`. -/
def recC2 : DataRecord :=
  ⟨cs "A", GeoLevel.global, none, cs "T", cs "s", hier0, [(2025, 10)]⟩

/-- A constant stand-in for the abstracted CAGR float computation. -/
def cagr0 : ℚ → ℚ → ℚ := fun _ _ => 0

/-- Example record: geography `G`, segment type `T`, growing values. -/
def recC3a : DataRecord :=
  ⟨cs "G", GeoLevel.country, none, cs "T", cs "SegA", hier0,
   [(2024, 100), (2032, 150)]⟩

/-- Example record: geography `G`, a second segment type `U`. -/
def recC3b : DataRecord :=
  ⟨cs "G", GeoLevel.country, none, cs "U", cs "Other", hier0,
   [(2024, 100), (2032, 100)]⟩

/-- The spec's worked example: one record, geography `Maharashtra`,
segment `B2B > Food`, time series `{2024: 100, 2032: 200}`. -/
def mahRec : DataRecord :=
  ⟨cs "Maharashtra", GeoLevel.country, none, cs "T", cs "B2B > Food",
   ⟨cs "B2B", [], [], []⟩, [(2024, 100), (2032, 200)]⟩

/-- Example record: segment `A` of type `T`, growth `+10`. -/
def recC5a : DataRecord :=
  ⟨cs "G", GeoLevel.country, none, cs "T", cs "A", hier0,
   [(2024, 100), (2032, 110)]⟩

/-- Example record: segment `B` of type `T`, growth `-5`. -/
def recC5b : DataRecord :=
  ⟨cs "G", GeoLevel.country, none, cs "T", cs "B", hier0,
   [(2024, 100), (2032, 95)]⟩

/-- Example filter state for the waterfall: full year range. -/
def fsW : FilterState :=
  ⟨[], [], cs "T", (2024, 2032), cs "B2B", ViewMode.geographyMode, []⟩

/-- Example record: geography `A`, delta `+30` between 2024 and 2032. -/
def wrecA : DataRecord :=
  ⟨cs "A", GeoLevel.country, none, cs "T", cs "s", hier0, [(2024, 10), (2032, 40)]⟩

/-- Example record: geography `Z`, delta exactly 0. -/
def wrecZ : DataRecord :=
  ⟨cs "Z", GeoLevel.country, none, cs "T", cs "s", hier0, [(2024, 7), (2032, 7)]⟩

/-- Example filter state with empty geography and segment selections. -/
def fsC6 : FilterState :=
  ⟨[], [], cs "T", (2024, 2032), cs "B2B", ViewMode.segmentMode, []⟩

/-- A record carrying only a segment path and a hierarchy; the remaining
fields are irrelevant to segment matching. -/
def mkSegRecord (seg : Str) (h : SegmentHierarchy) : DataRecord :=
  ⟨[], GeoLevel.global, none, [], seg, h, []⟩

/-- Boolean equality on `GeoLevel` agrees with propositional equality. -/
theorem geoLevel_beq_iff (a b : GeoLevel) : (a == b) = true ↔ a = b := by
  cases a <;> cases b <;> decide

/-- Boolean equality on `ViewMode` agrees with propositional equality. -/
theorem viewMode_beq_iff (a b : ViewMode) : (a == b) = true ↔ a = b := by
  cases a <;> cases b <;> decide

/-- Boolean equality on `RowKind` agrees with propositional equality. -/
theorem rowKind_beq_iff (a b : RowKind) : (a == b) = true ↔ a = b := by
  cases a <;> cases b <;> decide

/-- `List.contains` on embedded strings agrees with membership. -/
theorem containsStr_iff (l : List Str) (g : Str) : l.contains g = true ↔ g ∈ l := by
  simp [List.contains]

/-- A list is always a Boolean prefix of itself followed by anything. -/
theorem isPrefixOf_append_self (l t : Str) : l.isPrefixOf (l ++ t) = true := by
  induction l with
  | nil => simp [List.isPrefixOf]
  | cons c cl ih => simp [List.isPrefixOf, ih]

/-- Elements inserted by `sadd`. -/
theorem mem_sadd (s : List Str) (x g : Str) : g ∈ sadd s x ↔ g ∈ s ∨ g = x := by
  unfold sadd
  by_cases h : s.contains x
  · simp only [h, if_true]
    constructor
    · exact fun hg => Or.inl hg
    · rintro (hg | rfl)
      · exact hg
      · exact (containsStr_iff s g).mp h
  · have h2 : ¬ x ∈ s := fun hx => h ((containsStr_iff s x).mpr hx)
    simp [h2]

/-- A fold that ignores every element satisfying `p` computes the same
result on the `p`-free sublist. -/
theorem foldl_skip {α β : Type} (f : β → α → β) (p : α → Bool)
    (hf : ∀ acc r, p r = true → f acc r = acc) :
    ∀ (l : List α) (init : β),
      l.foldl f init = (l.filter (fun r => !p r)).foldl f init := by
  intro l
  induction l with
  | nil => intro init; rfl
  | cons r t ih =>
    intro init
    by_cases h : p r = true
    · simp [List.filter_cons, h, hf init r h, ih]
    · simp only [Bool.not_eq_true] at h
      simp [List.filter_cons, h, ih]

/-- A fold that ignores every element refuting `p` computes the same
result on the `p`-sublist. -/
theorem foldl_keep {α β : Type} (f : β → α → β) (p : α → Bool)
    (hf : ∀ acc r, p r = false → f acc r = acc) :
    ∀ (l : List α) (init : β),
      l.foldl f init = (l.filter p).foldl f init := by
  intro l
  induction l with
  | nil => intro init; rfl
  | cons r t ih =>
    intro init
    by_cases h : p r = true
    · simp [List.filter_cons, h, ih]
    · simp only [Bool.not_eq_true] at h
      simp [List.filter_cons, h, hf init r h, ih]

/-- Membership in a `sadd`-fold over a guarded key extraction. -/
theorem foldl_sadd_mem {α : Type} (p : α → Bool) (key : α → Str) :
    ∀ (l : List α) (init : List Str) (g : Str),
      g ∈ l.foldl (fun s r => if p r then sadd s (key r) else s) init ↔
        (g ∈ init ∨ ∃ r ∈ l, key r = g ∧ p r = true) := by
  intro l
  induction l with
  | nil => simp
  | cons r t ih =>
    intro init g
    by_cases h : p r = true
    · simp only [List.foldl_cons, h, if_true]
      rw [ih, mem_sadd]
      constructor
      · rintro ((hg | rfl) | ⟨r', hr', hk, hp⟩)
        · exact Or.inl hg
        · exact Or.inr ⟨r, List.mem_cons_self r t, rfl, h⟩
        · exact Or.inr ⟨r', List.mem_cons_of_mem r hr', hk, hp⟩
      · rintro (hg | ⟨r', hr', hk, hp⟩)
        · exact Or.inl (Or.inl hg)
        · rcases List.mem_cons.mp hr' with rfl | hr't
          · exact Or.inl (Or.inr hk.symm)
          · exact Or.inr ⟨r', hr't, hk, hp⟩
    · simp only [Bool.not_eq_true] at h
      simp only [List.foldl_cons, h, if_false]
      rw [ih]
      constructor
      · rintro (hg | ⟨r', hr', hk, hp⟩)
        · exact Or.inl hg
        · exact Or.inr ⟨r', List.mem_cons_of_mem r hr', hk, hp⟩
      · rintro (hg | ⟨r', hr', hk, hp⟩)
        · exact Or.inl hg
        · rcases List.mem_cons.mp hr' with rfl | hr't
          · rw [h] at hp; cases hp
          · exact Or.inr ⟨r', hr't, hk, hp⟩

/-- `alBump` adds exactly `v` to the total of the stored values. -/
theorem alBump_snd_sum (m : List (Str × ℚ)) (k : Str) (v : ℚ) :
    ((alBump m k v).map (·.2)).sum = v + (m.map (·.2)).sum := by
  induction m with
  | nil => simp [alBump]
  | cons e t ih =>
    by_cases h : e.1 == k
    · simp [alBump, h]
      ring
    · simp [alBump, h, ih]
      ring

/-- A fold of `alBump`s adds the per-element contributions to the total. -/
theorem foldl_alBump_sum {α : Type} (key : α → Str) (d : α → ℚ) :
    ∀ (l : List α) (m : List (Str × ℚ)),
      ((l.foldl (fun acc r => alBump acc (key r) (d r)) m).map (·.2)).sum =
        (m.map (·.2)).sum + (l.map d).sum := by
  intro l
  induction l with
  | nil => intro m; simp
  | cons r t ih =>
    intro m
    simp only [List.foldl_cons, List.map_cons, List.sum_cons, ih, alBump_snd_sum]
    ring

/-- Summing a difference of per-record values, record by record. -/
theorem sum_map_sub {α : Type} (l : List α) (f g : α → ℚ) :
    (l.map (fun r => f r - g r)).sum = (l.map f).sum - (l.map g).sum := by
  induction l with
  | nil => simp
  | cons r t ih => simp [ih]; ring

/-- The grouped waterfall deltas total the end-year minus start-year sum. -/
theorem groupedDeltas_sum (records : List DataRecord) (fs : FilterState) :
    ((groupedDeltas records fs).map (·.2)).sum =
      endTotalOf records fs - startTotalOf records fs := by
  unfold groupedDeltas endTotalOf startTotalOf
  rw [foldl_alBump_sum]
  simp [sum_map_sub]

/-- `insertAbs` only permutes. -/
theorem insertAbs_perm (x : Str × ℚ) (l : List (Str × ℚ)) :
    (insertAbs x l).Perm (x :: l) := by
  induction l with
  | nil => exact List.Perm.refl _
  | cons y t ih =>
    unfold insertAbs
    by_cases h : |y.2| ≤ |x.2|
    · simp only [h, if_true]
      exact List.Perm.refl _
    · simp only [h, if_false]
      exact ((ih).cons y).trans (List.Perm.swap x y t)

/-- The descending-absolute-value sort only permutes. -/
theorem sortAbs_perm (l : List (Str × ℚ)) : (sortAbs l).Perm l := by
  induction l with
  | nil => exact List.Perm.refl _
  | cons x t ih => exact (insertAbs_perm x (sortAbs t)).trans (ih.cons x)

/-- Splitting a signed total into its positive part minus the absolute
values of its negative part. -/
theorem pos_neg_sum_split (l : List (Str × ℚ)) :
    ((l.filter (fun e => decide (0 < e.2))).map (·.2)).sum -
      ((l.filter (fun e => decide (e.2 < 0))).map (fun e => |e.2|)).sum =
      (l.map (·.2)).sum := by
  induction l with
  | nil => simp
  | cons e t ih =>
    rcases lt_trichotomy (0 : ℚ) e.2 with h | h | h
    · have h2 : ¬ (e.2 < 0) := by linarith
      simp only [List.filter_cons, List.map_cons, List.sum_cons,
        decide_eq_true_eq, h, h2, if_true, if_false]
      linarith [ih]
    · have h1 : ¬ ((0 : ℚ) < e.2) := by linarith
      have h2 : ¬ (e.2 < 0) := by linarith
      simp only [List.filter_cons, List.map_cons, List.sum_cons,
        decide_eq_true_eq, h1, h2, if_false]
      linarith [ih]
    · have h1 : ¬ ((0 : ℚ) < e.2) := by linarith
      have h3 : |e.2| = -e.2 := abs_of_neg h
      simp only [List.filter_cons, List.map_cons, List.sum_cons,
        decide_eq_true_eq, h1, h, if_true, if_false, h3]
      linarith [ih]

/-- Key multiset of `alBump`: the bumped key is added only when new. -/
theorem mem_keys_alBump (t : List (Str × ℚ)) (k : Str) (v : ℚ) (x : Str) :
    x ∈ (alBump t k v).map (·.1) ↔ (x ∈ t.map (·.1) ∨ x = k) := by
  induction t with
  | nil => simp [alBump]
  | cons e s ih =>
    by_cases he : e.1 == k
    · have hek : e.1 = k := by simpa using he
      simp [alBump, he, hek]
      tauto
    · simp [alBump, he, ih]
      tauto

/-- `alBump` preserves distinctness of keys. -/
theorem alBump_nodupKeys (m : List (Str × ℚ)) (k : Str) (v : ℚ)
    (h : (m.map (·.1)).Nodup) : ((alBump m k v).map (·.1)).Nodup := by
  induction m with
  | nil => simp [alBump]
  | cons e t ih =>
    by_cases he : e.1 == k
    · simpa [alBump, he] using h
    · have hek : ¬ e.1 = k := by simpa using he
      simp only [List.map_cons, List.nodup_cons] at h
      simp only [alBump, he, Bool.false_eq_true, if_false, List.map_cons,
        List.nodup_cons]
      refine ⟨?_, ih h.2⟩
      rw [mem_keys_alBump]
      rintro (hmem | rfl)
      · exact h.1 hmem
      · exact hek rfl

/-- The grouped waterfall deltas have pairwise-distinct keys. -/
theorem groupedDeltas_nodupKeys (records : List DataRecord) (fs : FilterState) :
    ((groupedDeltas records fs).map (·.1)).Nodup := by
  unfold groupedDeltas
  have gen : ∀ (l : List DataRecord) (m : List (Str × ℚ)), (m.map (·.1)).Nodup →
      ((l.foldl (fun acc r =>
          alBump acc (wKey fs r) (tsAt r fs.yearRange.2 - tsAt r fs.yearRange.1)) m).map
        (·.1)).Nodup := by
    intro l
    induction l with
    | nil => intro m hm; simpa using hm
    | cons r t ih => intro m hm; exact ih _ (alBump_nodupKeys m _ _ hm)
  exact gen records [] (by simp)

/-- With distinct keys, membership determines the lookup result. -/
theorem lookup_eq_of_mem_nodup :
    ∀ (m : List (Str × ℚ)), (m.map (·.1)).Nodup →
      ∀ k v, (k, v) ∈ m → m.lookup k = some v := by
  intro m
  induction m with
  | nil => intro _ k v hv; cases hv
  | cons e t ih =>
    intro hnd k v hv
    simp only [List.map_cons, List.nodup_cons] at hnd
    rcases List.mem_cons.mp hv with rfl | hvt
    · simp [List.lookup]
    · by_cases hk : k == e.1
      · have hke : k = e.1 := by simpa using hk
        exfalso
        exact hnd.1 (List.mem_map.mpr ⟨(k, v), hvt, hke⟩)
      · simp only [List.lookup, hk]
        exact ih hnd.2 k v hvt

/-- A filter is a subset of its input. -/
theorem filter_subset_self {α : Type} (l : List α) (p : α → Bool) : l.filter p ⊆ l :=
  (List.filter_sublist l).subset

/-- A successful lookup comes from a member of the list. -/
theorem lookup_mem_nat : ∀ {l : List (Nat × ℚ)} {k : Nat} {v : ℚ},
    l.lookup k = some v → (k, v) ∈ l := by
  intro l
  induction l with
  | nil => intro k v h; cases h
  | cons e t ih =>
    intro k v h
    by_cases hk : k == e.1
    · have hke : k = e.1 := by simpa using hk
      simp only [List.lookup, hk] at h
      injection h with h2
      rw [hke, ← h2]
      exact List.mem_cons_self _ _
    · simp only [List.lookup, hk] at h
      exact List.mem_cons_of_mem _ (ih h)

/-- Nonnegative time series yield nonnegative `tsAt` values. -/
theorem tsAt_nonneg (r : DataRecord) (y : Nat)
    (h : ∀ p ∈ r.time_series, 0 ≤ p.2) : 0 ≤ tsAt r y := by
  unfold tsAt
  cases hl : r.time_series.lookup y with
  | none => simp
  | some v => exact h (y, v) (lookup_mem_nat hl)

/-- The bubble chart's geography filtering only drops records. -/
theorem geographyFiltered_subset (ds : List DataRecord) (g bz : Str) (segs : List Str) :
    ∀ r ∈ geographyFilteredOf ds g bz segs, r ∈ ds := by
  intro r h
  unfold geographyFilteredOf at h
  by_cases h2 : 0 < segs.length
  · simp only [h2, if_true] at h
    replace h := filter_subset_self _ _ h
    by_cases h1 : (bz != cs "All") = true
    · simp only [h1, if_true] at h
      exact filter_subset_self _ _ (filter_subset_self _ _ h)
    · simp only [h1, if_false] at h
      exact filter_subset_self _ _ h
  · simp only [h2, if_false] at h
    by_cases h1 : (bz != cs "All") = true
    · simp only [h1, if_true] at h
      exact filter_subset_self _ _ (filter_subset_self _ _ h)
    · simp only [h1, if_false] at h
      exact filter_subset_self _ _ h

/-- Shape of every `segmentData` entry: the stored market share is the
base value over the all-types total of the filtered geography data, the
stored CAGR is floored at 0, and the base value is a sum of base-year
values of filtered records. -/
theorem buildSegmentData_entry (cagrFn : ℚ → ℚ → ℚ) (ds : List DataRecord)
    (selGeo selBiz : Str) (selSegs : List Str) (selType : Str)
    (hier : List (Str × List Str)) :
    ∀ e ∈ buildSegmentData cagrFn ds selGeo selBiz selSegs selType hier,
      (e.marketShare2024 =
        if 0 < totalBase2024Of (geographyFilteredOf ds selGeo selBiz selSegs) then
          e.baseValue / totalBase2024Of (geographyFilteredOf ds selGeo selBiz selSegs) * 100
        else 0) ∧
      0 ≤ e.cagr ∧
      (∃ srecs : List DataRecord,
        (∀ r ∈ srecs, r ∈ geographyFilteredOf ds selGeo selBiz selSegs) ∧
        e.baseValue = (srecs.map (fun r => tsAt r 2024)).sum) := by
  intro e he
  simp only [buildSegmentData] at he
  split at he
  · cases he
  · rw [List.mem_filterMap] at he
    obtain ⟨a, _, hmk⟩ := he
    simp only [mkDatum] at hmk
    split at hmk
    · cases hmk
    · split at hmk
      · injection hmk with hmk2
        subst hmk2
        refine ⟨rfl, le_max_left 0 _, ?_⟩
        refine ⟨_, ?_, rfl⟩
        intro r hr
        exact filter_subset_self _ _ hr
      · cases hmk

/-- The capped normalized index never exceeds 100. -/
theorem capIndex_le_100 (m v : ℚ) :
    (if 0 < m then min 100 (v / m * 100) else 0) ≤ 100 := by
  split
  · exact min_le_left _ _
  · norm_num

/-- The capped normalized index of a nonnegative raw value is nonnegative. -/
theorem capIndex_nonneg (m v : ℚ) (hv : 0 ≤ v) :
    0 ≤ (if 0 < m then min 100 (v / m * 100) else 0) := by
  split
  · next hm => exact le_min (by norm_num) (mul_nonneg (div_nonneg hv hm.le) (by norm_num))
  · exact le_refl 0

/-- The attainer of a positive maximum gets index exactly 100. -/
theorem capIndex_attains (m : ℚ) (hm : 0 < m) :
    (if 0 < m then min 100 (m / m * 100) else 0) = 100 := by
  rw [if_pos hm, div_self (ne_of_gt hm)]
  norm_num

/-- A nonpositive maximum yields index 0. -/
theorem capIndex_degenerate (m v : ℚ) (hm : m ≤ 0) :
    (if 0 < m then min 100 (v / m * 100) else 0) = 0 :=
  if_neg (not_lt.mpr hm)

section
attribute [local semireducible] Rat.add Rat.mul Rat.sub Rat.inv Rat.ofScientific

/-- C1 counterexample: with `India` selected together with its child
regions, records `North India` (50) and `South India` (50) at year 2025
and segment `S` selected, the single output row synthesizes
`India = 100` — but `North India` and `South India` appear in NO series
entry of that row: the child geographies are skipped by the direct
aggregation, contradicting the claim that they remain separate entries. -/
theorem c1_india_rollup_counterexample :
    prepareGroupedBarData [northRec 50, southRec 50] fsC1 =
      [⟨2025, [(indiaStr, 100)]⟩] ∧
    (prepareGroupedBarData [northRec 50, southRec 50] fsC1).map
      (fun p => alGet p.entries (cs "North India")) = [none] ∧
    (prepareGroupedBarData [northRec 50, southRec 50] fsC1).map
      (fun p => alGet p.entries (cs "South India")) = [none] ∧
    (prepareGroupedBarData [northRec 50, southRec 50] fsC1).map
      (fun p => alGet p.entries indiaStr) = [some 100] := by
  refine ⟨by decide, by decide, by decide, by decide⟩

/-- C1 (amended): when `India` is selected in geography-mode with a
segment selection, the output row synthesizes one `India` series entry
equal to the sum of the matching child-geography values (100 in the
spec's example), and the child geographies are excluded from the direct
aggregation, so `North India` and `South India` do not appear as
separate series entries. -/
theorem c1_india_rollup_amended :
    ∀ v1 v2 : ℚ, prepareGroupedBarData [northRec v1, southRec v2] fsC1 =
      [⟨2025, [(indiaStr, v1 + v2)]⟩] :=
  fun _ _ => rfl

/-- C2 counterexample: in segment-mode with two selected geographies and
ZERO selected segments (so the secondary dimension has at most one
selection), the Aggregator still stacks: `needsStacking` is true and the
output carries the composite `A::s` key, contradicting the claim that
stacking requires more than one selection in each of the two dimensions. -/
theorem c2_stacking_counterexample :
    needsStacking fsC2 = true ∧
    ¬ (1 < primaryCountClaim fsC2 ∧ 1 < secondaryCountClaim fsC2) ∧
    prepareGroupedBarData [recC2] fsC2 = [⟨2025, [(cs "A::s", 10)]⟩] := by
  refine ⟨by decide, by decide, by decide⟩

/-- C2 (amended): stacked output is produced exactly when the PRIMARY
dimension has more than one selection — geographies in segment-mode,
segments in geography-mode; the matrix view never stacks and the
secondary dimension's selection count is irrelevant. -/
theorem c2_stacking_amended :
    ∀ fs : FilterState, needsStacking fs = true ↔ 1 < primaryCountClaim fs := by
  intro fs
  cases hv : fs.viewMode <;>
    simp [needsStacking, primaryCountClaim, hv, viewMode_beq_iff]

/-- C3 counterexample: geography `G` holds one record of the selected
type `T` (base 100) and one record of another type `U` (base 100).  The
sole immediate child of type `T` receives marketShare 50, because the
denominator is the all-types total (200) of the filtered geography data,
not the type-`T` total (100) the claim specifies — under the claim the
sole segment of its type would get 100. -/
theorem c3_marketshare_counterexample :
    (buildSegmentData cagr0 [recC3a, recC3b] (cs "G") (cs "All") [] (cs "T") []).map
        (·.marketShare2024) = [50] ∧
    (buildSegmentData cagr0 [recC3a, recC3b] (cs "G") (cs "All") [] (cs "T") []).map
        (·.baseValue) = [100] ∧
    totalBaseOfTypeClaim (geographyFilteredOf [recC3a, recC3b] (cs "G") (cs "All") [])
        (cs "T") = 100 ∧
    (100 : ℚ) / 100 * 100 = 100 ∧ (50 : ℚ) ≠ 100 := by
  refine ⟨by decide, by decide, by decide, by decide, by decide⟩

/-- C3 (amended): every computed marketShare equals the child's
aggregated base-year value divided by the sum of base-year values over
ALL records of the filtered geography data — every segment type included
— times 100 (0 when that total is not positive); on the spec's
single-record Maharashtra example the marketShare is exactly 100. -/
theorem c3_marketshare_amended :
    (∀ (cagrFn : ℚ → ℚ → ℚ) (ds : List DataRecord) (selGeo selBiz : Str)
        (selSegs : List Str) (selType : Str) (hier : List (Str × List Str)),
      ∀ e ∈ buildSegmentData cagrFn ds selGeo selBiz selSegs selType hier,
        e.marketShare2024 =
          if 0 < totalBase2024Of (geographyFilteredOf ds selGeo selBiz selSegs) then
            e.baseValue / totalBase2024Of (geographyFilteredOf ds selGeo selBiz selSegs) * 100
          else 0) ∧
    (buildSegmentData cagr0 [mahRec] (cs "Maharashtra") (cs "All") [] (cs "T") []).map
        (·.marketShare2024) = [100] := by
  constructor
  · intro cagrFn ds sg sb ss st hier e he
    exact (buildSegmentData_entry cagrFn ds sg sb ss st hier e he).1
  · decide

/-- C3 witness: applying the amended theorem to the spec's Maharashtra
example instantiates the marketShare formula on a concrete child. -/
theorem c3_marketshare_amended_witness :
    (⟨cs "B2B > Food", 100, 200, 0, 100, 100, 0⟩ : SegmentDatum).marketShare2024 =
      if 0 < totalBase2024Of (geographyFilteredOf [mahRec] (cs "Maharashtra") (cs "All") []) then
        (⟨cs "B2B > Food", 100, 200, 0, 100, 100, 0⟩ : SegmentDatum).baseValue /
          totalBase2024Of (geographyFilteredOf [mahRec] (cs "Maharashtra") (cs "All") []) * 100
      else 0 :=
  c3_marketshare_amended.1 cagr0 [mahRec] (cs "Maharashtra") (cs "All") [] (cs "T") []
    ⟨cs "B2B > Food", 100, 200, 0, 100, 100, 0⟩ (by decide)

/-- C4: for positive base and forecast values the stored CAGR equals the
claim's formula — the growth ratio capped at 100, raised to the power
1 over 8 (the fixed year span 2032 − 2024), minus 1, times 100, floored
at 0 and capped at 100 — hence it always lies in [0, 100]; and the
spec's example (base 100, forecast 200) yields ≈ 9.05 (within 0.01). -/
theorem c4_cagr_formula_bounds :
    (∀ base forecast : ℝ, 0 < base → 0 < forecast →
      pushedCagrReal base forecast =
        min 100 (max 0 (((min (forecast / base) 100) ^ ((8 : ℝ)⁻¹) - 1) * 100)) ∧
      0 ≤ pushedCagrReal base forecast ∧ pushedCagrReal base forecast ≤ 100) ∧
    |pushedCagrReal 100 200 - 9.05| < 1 / 100 := by
  constructor
  · intro b f hb hf
    refine ⟨?_, le_max_left _ _, ?_⟩
    · unfold pushedCagrReal calculatedCAGRReal
      rw [if_pos ⟨hb, hf⟩, max_min_distrib_left]
      simp [min_comm]
    · unfold pushedCagrReal calculatedCAGRReal
      rw [if_pos ⟨hb, hf⟩]
      exact max_le (by norm_num) (min_le_right _ 100)
  · have hlo : (1.0905 : ℝ) < (2 : ℝ) ^ ((8 : ℝ)⁻¹) := by
      have hkey : ((1.0905 : ℝ) ^ (8 : ℕ)) ^ (((8 : ℕ) : ℝ))⁻¹ = 1.0905 :=
        Real.pow_rpow_inv_natCast (by norm_num) (by norm_num)
      have hc : (((8 : ℕ) : ℝ))⁻¹ = ((8 : ℝ))⁻¹ := by norm_num
      rw [hc] at hkey
      calc (1.0905 : ℝ) = ((1.0905 : ℝ) ^ (8 : ℕ)) ^ ((8 : ℝ))⁻¹ := hkey.symm
        _ < (2 : ℝ) ^ ((8 : ℝ))⁻¹ :=
          Real.rpow_lt_rpow (by positivity) (by norm_num) (by norm_num)
    have hhi : (2 : ℝ) ^ ((8 : ℝ)⁻¹) < 1.0906 := by
      have hkey : ((1.0906 : ℝ) ^ (8 : ℕ)) ^ (((8 : ℕ) : ℝ))⁻¹ = 1.0906 :=
        Real.pow_rpow_inv_natCast (by norm_num) (by norm_num)
      have hc : (((8 : ℕ) : ℝ))⁻¹ = ((8 : ℝ))⁻¹ := by norm_num
      rw [hc] at hkey
      calc (2 : ℝ) ^ ((8 : ℝ))⁻¹ < ((1.0906 : ℝ) ^ (8 : ℕ)) ^ ((8 : ℝ))⁻¹ :=
          Real.rpow_lt_rpow (by norm_num) (by norm_num) (by norm_num)
        _ = 1.0906 := hkey
    have hval : pushedCagrReal 100 200 =
        max 0 (min (((2 : ℝ) ^ ((8 : ℝ)⁻¹) - 1) * 100) 100) := by
      unfold pushedCagrReal calculatedCAGRReal
      rw [if_pos (⟨by norm_num, by norm_num⟩ : (0:ℝ) < 100 ∧ (0:ℝ) < 200)]
      rw [show ((200 : ℝ) / 100) = 2 by norm_num,
        min_eq_left (by norm_num : (2:ℝ) ≤ 100)]
    rw [hval]
    have h1 : ((2:ℝ) ^ ((8:ℝ)⁻¹) - 1) * 100 < 100 := by nlinarith [hhi]
    have h2 : (9.05 : ℝ) < ((2:ℝ) ^ ((8:ℝ)⁻¹) - 1) * 100 := by nlinarith [hlo]
    rw [min_eq_left h1.le, max_eq_right (by linarith)]
    rw [abs_lt]
    constructor
    · linarith
    · linarith

/-- C4 witness: the formula and bounds instantiated at the spec's
example values base 100, forecast 200. -/
theorem c4_cagr_formula_bounds_witness :
    pushedCagrReal 100 200 =
      min 100 (max 0 (((min ((200 : ℝ) / 100) 100) ^ ((8 : ℝ)⁻¹) - 1) * 100)) ∧
    0 ≤ pushedCagrReal 100 200 ∧ pushedCagrReal 100 200 ≤ 100 :=
  c4_cagr_formula_bounds.1 100 200 (by norm_num) (by norm_num)

/-- C5 counterexample: two children of geography `G` with nonnegative
data, one growing by +10 and one shrinking by −5.  The shrinking child's
incremental-opportunity index is −50, outside the claimed range
[0, 100]. -/
theorem c5_index_counterexample :
    (bubblesOf cagr0 [recC5a, recC5b] (cs "G") (cs "All") [] (cs "T") []).map
        (·.zIndex) = [100, -50] ∧
    (∀ r ∈ [recC5a, recC5b], ∀ p ∈ r.time_series, 0 ≤ p.2) ∧
    ¬ (0 : ℚ) ≤ -50 := by
  refine ⟨by decide, by decide, by decide⟩

/-- C5 (amended): every index equals the raw metric over the maximum,
times 100, capped at 100, and 0 when the maximum is not positive; over
nonnegative record data the CAGR and market-share indices lie in
[0, 100] and the attainer of a positive maximum gets exactly 100 for
each of the three metrics; the incremental-opportunity index is capped
at 100 and nonnegative only when the child's absolute growth is
nonnegative (it is negative for a shrinking child, as the counterexample
shows). -/
theorem c5_indices_amended :
    ∀ (cagrFn : ℚ → ℚ → ℚ) (ds : List DataRecord) (selGeo selBiz : Str)
      (selSegs : List Str) (selType : Str) (hier : List (Str × List Str)),
      (∀ r ∈ ds, ∀ p ∈ r.time_series, 0 ≤ p.2) →
      ∀ b ∈ bubblesOf cagrFn ds selGeo selBiz selSegs selType hier,
        (0 ≤ b.xIndex ∧ b.xIndex ≤ 100) ∧
        (0 ≤ b.yIndex ∧ b.yIndex ≤ 100) ∧
        b.zIndex ≤ 100 ∧
        (0 ≤ b.absoluteGrowth → 0 ≤ b.zIndex) ∧
        (maxGrowthOf (buildSegmentData cagrFn ds selGeo selBiz selSegs selType hier) ≤ 0 →
          b.zIndex = 0) ∧
        (0 < maxCAGROf (buildSegmentData cagrFn ds selGeo selBiz selSegs selType hier) →
          b.cagr = maxCAGROf (buildSegmentData cagrFn ds selGeo selBiz selSegs selType hier) →
          b.xIndex = 100) ∧
        (0 < maxShareOf (buildSegmentData cagrFn ds selGeo selBiz selSegs selType hier) →
          b.marketShare = maxShareOf (buildSegmentData cagrFn ds selGeo selBiz selSegs selType hier) →
          b.yIndex = 100) ∧
        (0 < maxGrowthOf (buildSegmentData cagrFn ds selGeo selBiz selSegs selType hier) →
          b.absoluteGrowth = maxGrowthOf (buildSegmentData cagrFn ds selGeo selBiz selSegs selType hier) →
          b.zIndex = 100) := by
  intro cagrFn ds sg sb ss st hier hts b hb
  rcases List.mem_map.mp hb with ⟨e, he, rfl⟩
  obtain ⟨hshare, hcagr0, srecs, hsub, hbase⟩ :=
    buildSegmentData_entry cagrFn ds sg sb ss st hier e he
  have hbase0 : 0 ≤ e.baseValue := by
    rw [hbase]
    apply List.sum_nonneg
    intro x hx
    rcases List.mem_map.mp hx with ⟨r, hr, rfl⟩
    exact tsAt_nonneg r 2024
      (fun p hp => hts r (geographyFiltered_subset ds sg sb ss r (hsub r hr)) p hp)
  have hshare0 : 0 ≤ e.marketShare2024 := by
    rw [hshare]
    split
    · next htot => exact mul_nonneg (div_nonneg hbase0 htot.le) (by norm_num)
    · exact le_refl 0
  refine ⟨⟨?_, ?_⟩, ⟨?_, ?_⟩, ?_, ?_, ?_, ?_, ?_, ?_⟩
  · exact capIndex_nonneg _ _ hcagr0
  · exact capIndex_le_100 _ _
  · exact capIndex_nonneg _ _ hshare0
  · exact capIndex_le_100 _ _
  · exact capIndex_le_100 _ _
  · intro hg
    exact capIndex_nonneg _ _ hg
  · intro hm
    exact capIndex_degenerate _ _ hm
  · intro hm heq
    show cagrIndexOf _ e = 100
    unfold cagrIndexOf
    rw [show e.cagr = maxCAGROf (buildSegmentData cagrFn ds sg sb ss st hier) from heq]
    exact capIndex_attains _ hm
  · intro hm heq
    show shareIndexOf _ e = 100
    unfold shareIndexOf
    rw [show e.marketShare2024 = maxShareOf (buildSegmentData cagrFn ds sg sb ss st hier) from heq]
    exact capIndex_attains _ hm
  · intro hm heq
    show growthIndexOf _ e = 100
    unfold growthIndexOf
    rw [show e.absoluteGrowth = maxGrowthOf (buildSegmentData cagrFn ds sg sb ss st hier) from heq]
    exact capIndex_attains _ hm

/-- C5 witness: the amended index properties instantiated on the growing
child `A` of the counterexample data. -/
theorem c5_indices_amended_witness :
    (0 ≤ (⟨cs "A", 0, 100, 100, 0, 50, 10, 110, 0⟩ : Bubble).xIndex ∧
      (⟨cs "A", 0, 100, 100, 0, 50, 10, 110, 0⟩ : Bubble).xIndex ≤ 100) ∧
    (0 ≤ (⟨cs "A", 0, 100, 100, 0, 50, 10, 110, 0⟩ : Bubble).yIndex ∧
      (⟨cs "A", 0, 100, 100, 0, 50, 10, 110, 0⟩ : Bubble).yIndex ≤ 100) ∧
    (⟨cs "A", 0, 100, 100, 0, 50, 10, 110, 0⟩ : Bubble).zIndex ≤ 100 ∧
    (0 ≤ (⟨cs "A", 0, 100, 100, 0, 50, 10, 110, 0⟩ : Bubble).absoluteGrowth →
      0 ≤ (⟨cs "A", 0, 100, 100, 0, 50, 10, 110, 0⟩ : Bubble).zIndex) ∧
    (maxGrowthOf (buildSegmentData cagr0 [recC5a, recC5b] (cs "G") (cs "All") [] (cs "T") []) ≤ 0 →
      (⟨cs "A", 0, 100, 100, 0, 50, 10, 110, 0⟩ : Bubble).zIndex = 0) ∧
    (0 < maxCAGROf (buildSegmentData cagr0 [recC5a, recC5b] (cs "G") (cs "All") [] (cs "T") []) →
      (⟨cs "A", 0, 100, 100, 0, 50, 10, 110, 0⟩ : Bubble).cagr =
        maxCAGROf (buildSegmentData cagr0 [recC5a, recC5b] (cs "G") (cs "All") [] (cs "T") []) →
      (⟨cs "A", 0, 100, 100, 0, 50, 10, 110, 0⟩ : Bubble).xIndex = 100) ∧
    (0 < maxShareOf (buildSegmentData cagr0 [recC5a, recC5b] (cs "G") (cs "All") [] (cs "T") []) →
      (⟨cs "A", 0, 100, 100, 0, 50, 10, 110, 0⟩ : Bubble).marketShare =
        maxShareOf (buildSegmentData cagr0 [recC5a, recC5b] (cs "G") (cs "All") [] (cs "T") []) →
      (⟨cs "A", 0, 100, 100, 0, 50, 10, 110, 0⟩ : Bubble).yIndex = 100) ∧
    (0 < maxGrowthOf (buildSegmentData cagr0 [recC5a, recC5b] (cs "G") (cs "All") [] (cs "T") []) →
      (⟨cs "A", 0, 100, 100, 0, 50, 10, 110, 0⟩ : Bubble).absoluteGrowth =
        maxGrowthOf (buildSegmentData cagr0 [recC5a, recC5b] (cs "G") (cs "All") [] (cs "T") []) →
      (⟨cs "A", 0, 100, 100, 0, 50, 10, 110, 0⟩ : Bubble).zIndex = 100) :=
  c5_indices_amended cagr0 [recC5a, recC5b] (cs "G") (cs "All") [] (cs "T") []
    (by decide) ⟨cs "A", 0, 100, 100, 0, 50, 10, 110, 0⟩ (by decide)

/-- C6: with empty geography and segment selections (and no advanced
selection), the Filter Engine returns exactly the input records whose
segment type equals the selected one and whose business type matches —
the geography and segment axes act as identity — and the result is a
sublist of the input, so input order is preserved; the function is total
by construction, so it never throws. -/
theorem c6_filter_empty_axes :
    ∀ (data : List DataRecord) (fs : FilterState),
      fs.geographies = [] → fs.segments = [] → fs.advancedSegments = [] →
      filterData data fs =
        data.filter (fun r => r.segment_type == fs.segmentType &&
          businessTypeMatch r fs) ∧
      (filterData data fs).Sublist data := by
  intro data fs hg hs ha
  constructor
  · unfold filterData
    apply List.filter_congr
    intro r _
    simp [recordPasses, isGeographyMatch, isSegmentMatchSel, hg, hs, ha]
  · exact List.filter_sublist data

/-- C6 witness: the identity behaviour on a concrete two-record list
(one record of the selected type, one of another type). -/
theorem c6_filter_empty_axes_witness :
    filterData [recC3a, recC3b] fsC6 =
      [recC3a, recC3b].filter (fun r => r.segment_type == fsC6.segmentType &&
        businessTypeMatch r fsC6) ∧
    (filterData [recC3a, recC3b] fsC6).Sublist [recC3a, recC3b] :=
  c6_filter_empty_axes [recC3a, recC3b] fsC6 rfl rfl rfl

/-- C7: the Filter Engine's segment matching is reflexive — a record
with segment path `p` matches the selection `[p]` — and bidirectional
across hierarchy levels: for the child path `p ++ " > " ++ x`, a record
with the child path matches the selection `[p]`, and a record with path
`p` matches the selection containing the child path. -/
theorem c7_segment_matching_reflexive_bidirectional :
    ∀ (p x : Str) (h : SegmentHierarchy),
      isSegmentMatchSel (mkSegRecord p h) [p] = true ∧
      isSegmentMatchSel (mkSegRecord (p ++ sepStr ++ x) h) [p] = true ∧
      isSegmentMatchSel (mkSegRecord p h) [p ++ sepStr ++ x] = true := by
  intro p x h
  refine ⟨?_, ?_, ?_⟩
  · simp [isSegmentMatchSel, segSelMatch, mkSegRecord]
  · simp [isSegmentMatchSel, segSelMatch, mkSegRecord]
  · simp [isSegmentMatchSel, segSelMatch, mkSegRecord]

/-- C8: waterfall conservation — the sum of the values of the
`positive` rows minus the sum of the values of the `negative` rows
equals the value of the `end` row minus the value of the `start` row;
in the exact-arithmetic embedding the identity is exact, hence within
any floating tolerance. -/
theorem c8_waterfall_conservation (records : List DataRecord) (fs : FilterState) :
    sumVals ((prepareWaterfallData records fs).filter
        (fun r => decide (r.wtype = RowKind.positive))) -
      sumVals ((prepareWaterfallData records fs).filter
        (fun r => decide (r.wtype = RowKind.negative))) =
      sumVals ((prepareWaterfallData records fs).filter
        (fun r => decide (r.wtype = RowKind.wend))) -
      sumVals ((prepareWaterfallData records fs).filter
        (fun r => decide (r.wtype = RowKind.start))) := by
  unfold prepareWaterfallData sumVals
  simp only [List.filter_cons, List.filter_append, List.filter_map, Function.comp]
  simp only [decide_eq_true_eq]
  simp
  simp only [Function.comp_def]
  have hperm : ((sortAbs (groupedDeltas records fs)).map (·.2)).Perm
      ((groupedDeltas records fs).map (·.2)) :=
    (sortAbs_perm (groupedDeltas records fs)).map (·.2)
  calc ((((sortAbs (groupedDeltas records fs)).filter (fun e => decide (0 < e.2))).map
          (fun e => e.2)).sum -
        (((sortAbs (groupedDeltas records fs)).filter (fun e => decide (e.2 < 0))).map
          (fun e => |e.2|)).sum)
      = ((sortAbs (groupedDeltas records fs)).map (·.2)).sum :=
        pos_neg_sum_split (sortAbs (groupedDeltas records fs))
    _ = ((groupedDeltas records fs).map (·.2)).sum := hperm.sum_eq
    _ = endTotalOf records fs - startTotalOf records fs := groupedDeltas_sum records fs

/-- C9: whenever `India` is among the selected geographies, the child
set collects exactly the geographies of records parented to `India` OR
at `region`/`country` level; such records are excluded from the direct
per-series aggregation of both `prepareGroupedBarData` (unstacked path)
and `prepareLineChartData` — dropping them does not change the direct
aggregation — and the synthesized `India` rollup reads only them. -/
theorem c9_india_child_classification :
    ∀ (records : List DataRecord) (fs : FilterState) (year : Nat),
      fs.geographies.contains indiaStr = true →
      ((∀ g : Str, (childGeographiesOf records).contains g = true ↔
          ∃ r ∈ records, r.geography = g ∧
            (r.parent_geography = some indiaStr ∨ r.geography_level = GeoLevel.region ∨
             r.geography_level = GeoLevel.country)) ∧
       unstackedAgg (fs.geographies.contains indiaStr) (childGeographiesOf records) fs
           records year =
         unstackedAgg (fs.geographies.contains indiaStr) (childGeographiesOf records) fs
           (records.filter
             (fun r => !(childGeographiesOf records).contains r.geography)) year ∧
       indiaPrePassMap (childGeographiesOf records) fs.viewMode fs.segments records year =
         indiaPrePassMap (childGeographiesOf records) fs.viewMode fs.segments
           (records.filter
             (fun r => (childGeographiesOf records).contains r.geography)) year ∧
       lineDirect (fs.geographies.contains indiaStr) (childGeographiesOf records)
           fs.viewMode records year =
         lineDirect (fs.geographies.contains indiaStr) (childGeographiesOf records)
           fs.viewMode
           (records.filter
             (fun r => !(childGeographiesOf records).contains r.geography)) year ∧
       lineIndia (childGeographiesOf records) fs.viewMode fs.segments records year =
         lineIndia (childGeographiesOf records) fs.viewMode fs.segments
           (records.filter
             (fun r => (childGeographiesOf records).contains r.geography)) year) := by
  intro records fs year h
  refine ⟨?_, ?_, ?_, ?_, ?_⟩
  · intro g
    unfold childGeographiesOf
    rw [containsStr_iff, foldl_sadd_mem]
    simp [geoLevel_beq_iff]
  · rw [h]
    unfold unstackedAgg
    refine foldl_skip _ (fun r => (childGeographiesOf records).contains r.geography)
      ?_ records []
    intro acc r hp
    simp only at hp
    have hm : r.geography ∈ childGeographiesOf records := (containsStr_iff _ _).mp hp
    simp [hm]
  · unfold indiaPrePassMap
    refine foldl_keep _ (fun r => (childGeographiesOf records).contains r.geography)
      ?_ records []
    intro acc r hp
    simp only at hp
    have hn : ¬ r.geography ∈ childGeographiesOf records := by
      rw [← containsStr_iff, hp]
      simp
    simp [hn]
  · rw [h]
    unfold lineDirect
    refine foldl_skip _ (fun r => (childGeographiesOf records).contains r.geography)
      ?_ records []
    intro acc r hp
    simp only at hp
    have hm : r.geography ∈ childGeographiesOf records := (containsStr_iff _ _).mp hp
    simp [hm]
  · unfold lineIndia
    refine foldl_keep _ (fun r => (childGeographiesOf records).contains r.geography)
      ?_ records []
    intro acc r hp
    simp only at hp
    have hn : ¬ r.geography ∈ childGeographiesOf records := by
      rw [← containsStr_iff, hp]
      simp
    simp [hn]

/-- C9 witness: on the two-region example, `North India` is classified
as a child geography of `India`. -/
theorem c9_india_child_classification_witness :
    (childGeographiesOf [northRec 50, southRec 50]).contains (cs "North India") = true :=
  ((c9_india_child_classification [northRec 50, southRec 50] fsC1 2025 (by decide)).1
      (cs "North India")).mpr
    ⟨northRec 50, List.mem_cons_self _ _, rfl, Or.inl rfl⟩

/-- C10: every `positive` or `negative` waterfall row carries a strictly
positive value (negative deltas are emitted as absolute values), and an
entity whose grouped delta is exactly zero produces no `positive` or
`negative` row at all. -/
theorem c10_waterfall_rows (records : List DataRecord) (fs : FilterState) :
    (∀ row ∈ prepareWaterfallData records fs,
        row.wtype = RowKind.positive → 0 < row.value) ∧
    (∀ row ∈ prepareWaterfallData records fs,
        row.wtype = RowKind.negative → 0 < row.value) ∧
    (∀ k : Str, (groupedDeltas records fs).lookup k = some 0 →
      ∀ row ∈ prepareWaterfallData records fs,
        row.wtype = RowKind.positive ∨ row.wtype = RowKind.negative →
          ¬ row.name = k) := by
  have hmem : ∀ row ∈ prepareWaterfallData records fs,
      row.wtype = RowKind.start ∨ row.wtype = RowKind.wend ∨
      (∃ e ∈ sortAbs (groupedDeltas records fs),
        0 < e.2 ∧ row = ⟨e.1, e.2, RowKind.positive⟩) ∨
      (∃ e ∈ sortAbs (groupedDeltas records fs),
        e.2 < 0 ∧ row = ⟨e.1, |e.2|, RowKind.negative⟩) := by
    intro row hrow
    unfold prepareWaterfallData at hrow
    simp only [List.mem_cons, List.mem_append, List.mem_map, List.mem_filter,
      List.not_mem_nil, or_false, decide_eq_true_eq] at hrow
    rcases hrow with rfl | hrow
    · exact Or.inl rfl
    rcases hrow with ⟨e, ⟨he, hpos⟩, rfl⟩ | hrow
    · exact Or.inr (Or.inr (Or.inl ⟨e, he, hpos, rfl⟩))
    rcases hrow with ⟨e, ⟨he, hneg⟩, rfl⟩ | rfl
    · exact Or.inr (Or.inr (Or.inr ⟨e, he, hneg, rfl⟩))
    · exact Or.inr (Or.inl rfl)
  refine ⟨?_, ?_, ?_⟩
  · intro row hrow hpos
    rcases hmem row hrow with h | h | ⟨e, _, hgt, rfl⟩ | ⟨e, _, _, rfl⟩
    · rw [hpos] at h; cases h
    · rw [hpos] at h; cases h
    · exact hgt
    · exact absurd hpos (by simp)
  · intro row hrow hneg
    rcases hmem row hrow with h | h | ⟨e, _, _, rfl⟩ | ⟨e, _, hlt, rfl⟩
    · rw [hneg] at h; cases h
    · rw [hneg] at h; cases h
    · exact absurd hneg (by simp)
    · exact abs_pos.mpr (ne_of_lt hlt)
  · intro k hk row hrow hkind hname
    rcases hmem row hrow with h | h | ⟨e, he, hgt, rfl⟩ | ⟨e, he, hlt, rfl⟩
    · rcases hkind with h2 | h2 <;> rw [h2] at h <;> cases h
    · rcases hkind with h2 | h2 <;> rw [h2] at h <;> cases h
    · have hkmem : (k, e.2) ∈ groupedDeltas records fs := by
        have hmem2 := (sortAbs_perm (groupedDeltas records fs)).mem_iff.mp he
        have hpair : e = (k, e.2) := by
          have hek : e.1 = k := hname
          exact Prod.ext hek rfl
        rwa [hpair] at hmem2
      have hlook := lookup_eq_of_mem_nodup (groupedDeltas records fs)
        (groupedDeltas_nodupKeys records fs) k e.2 hkmem
      rw [hk] at hlook
      have he0 : e.2 = 0 := by injection hlook.symm
      linarith
    · have hkmem : (k, e.2) ∈ groupedDeltas records fs := by
        have hmem2 := (sortAbs_perm (groupedDeltas records fs)).mem_iff.mp he
        have hpair : e = (k, e.2) := by
          have hek : e.1 = k := hname
          exact Prod.ext hek rfl
        rwa [hpair] at hmem2
      have hlook := lookup_eq_of_mem_nodup (groupedDeltas records fs)
        (groupedDeltas_nodupKeys records fs) k e.2 hkmem
      rw [hk] at hlook
      have he0 : e.2 = 0 := by injection hlook.symm
      linarith

/-- C10 witness: on a two-record example the `A` row (delta +30) is a
positive row with positive value, and the zero-delta entity `Z`
contributes no positive or negative row. -/
theorem c10_waterfall_rows_witness :
    (0 : ℚ) < (⟨cs "A", 30, RowKind.positive⟩ : WRow).value ∧
    ¬ (⟨cs "A", 30, RowKind.positive⟩ : WRow).name = cs "Z" :=
  ⟨(c10_waterfall_rows [wrecA, wrecZ] fsW).1 ⟨cs "A", 30, RowKind.positive⟩
      (by decide) rfl,
   (c10_waterfall_rows [wrecA, wrecZ] fsW).2.2 (cs "Z") (by decide)
     ⟨cs "A", 30, RowKind.positive⟩ (by decide) (Or.inl rfl)⟩

end
